import Mathlib

/-!
Shallow embedding of `usecase/productRequest.go` from the Hewpao backend.

The service object's collaborators (request store, offer store, user store,
object store, notifier) are modelled as an environment of pure functions.
Each public operation is translated line by line into a Lean function that
returns the Go function's result (`Except Failure α`, with runtime panics
distinguished from returned `error` values) together with a trace of the
collaborator calls it performed, in order.
-/

namespace Hewpao

/-- Modelled from the spec: the error values of the `exception` package and
pass-through infrastructure errors returned by collaborators. -/
inductive Err
  | permissionDenied
  | couldNotUpdateStatus
  | notFound
  | invalidDuration
  | other (msg : String)
deriving DecidableEq

/-- A Go runtime panic, distinguished from a returned `error` value. -/
inductive PanicKind
  | indexOutOfRange
  | nilPointerDereference
  | divideByZero
deriving DecidableEq

/-- Outcome of running a Go function: a returned `error` or a runtime panic. -/
inductive Failure
  | err (e : Err)
  | panic (p : PanicKind)
deriving DecidableEq

/-- Modelled from the spec: `domain.Offer` — identity plus owning user. -/
structure Offer where
  id : Int
  userID : String
deriving DecidableEq

/-- Modelled from the spec: `domain.User` — identity plus a role classifier. -/
structure User where
  id : String
  role : String
deriving DecidableEq

/-- Modelled from the spec: `types.Admin`, the administrator role value. -/
def Admin : String := "Admin"

/-- Modelled from the spec: `types.Purchased`, one of the delivery statuses. -/
def Purchased : String := "Purchased"

/-- Modelled from the spec: `domain.ProductRequest`. The owner reference
(`UserID`, a Go `*string`) and `SelectedOfferID` (a Go `*uint`) are nullable;
soft deletion is a timestamp, not row removal. -/
structure ProductRequest where
  id : Int
  userID : Option String
  name : String
  desc : String
  budget : Int
  category : String
  quantity : Int
  images : List String
  offers : List Offer
  selectedOfferID : Option Int
  selectedOffer : Option Offer
  deliveryStatus : String
  transactions : List Int
  createdAt : Int
  updatedAt : Int
  deletedAtTime : Int
deriving DecidableEq

/-- Modelled from the spec: `dto.UpdateProductRequestDTO`. -/
structure UpdateProductRequestDTO where
  name : String
  desc : String
  budget : Int
  category : String
  quantity : Int
  selectedOfferID : Int
deriving DecidableEq

/-- Modelled from the spec: `dto.UpdateProductRequestStatusDTO`. -/
structure UpdateProductRequestStatusDTO where
  deliveryStatus : String
deriving DecidableEq

/-- Modelled from the spec: `dto.DetailOfProductRequestResponseDTO`.
Fields a projection leaves unset keep their Go zero value (the defaults). -/
structure DetailOfProductRequestResponseDTO where
  id : Int := 0
  desc : String := ""
  category : String := ""
  images : List String := []
  budget : Int := 0
  quantity : Int := 0
  userID : Option String := none
  offers : List Offer := []
  transactions : List Int := []
  createdAt : Int := 0
  updatedAt : Int := 0
  deletedAt : Int := 0
deriving DecidableEq

/-- Modelled from the spec: `dto.PaginationGetProductRequestResponse`. -/
structure PaginationGetProductRequestResponse where
  data : List DetailOfProductRequestResponseDTO
  page : Int
  limit : Int
  totalRows : Int
  totalPages : Int
deriving DecidableEq

/-- Modelled from the spec: the part of `multipart.FileHeader` the code reads
(filename, size, the Content-Type header). -/
structure FileHeader where
  filename : String
  size : Int
  contentType : String
deriving DecidableEq

/-- An opaque stand-in for an `io.Reader`; the use case only passes it along. -/
structure Reader where
  tag : Int
deriving DecidableEq

/-- Modelled from the spec: the bucket/key pair in `minio.UploadInfo`. -/
structure UploadInfo where
  bucket : String
  key : String
deriving DecidableEq

/-- Modelled from the spec: the two configuration values the code consumes. -/
structure Config where
  s3Expiration : String
  s3BucketName : String
deriving DecidableEq

/-- One collaborator call, recorded in the order the code performs them. -/
inductive Effect
  | findRequest (id : Int)
  | findByUser (id : String)
  | findPage (page limit : Int)
  | userLookup (id : String)
  | offerLookup (id : Int)
  | upload (filename : String)
  | signURL (bucket path : String) (duration : Int)
  | storeCreate (pr : ProductRequest)
  | storeUpdate (pr : ProductRequest)
  | notify (pr : ProductRequest)
deriving DecidableEq

/-- The collaborators of `productRequestService`, as pure functions
(`repo`, `userRepo`, `offerRepo`, `minioRepo`, `notificationService`, `cfg`). -/
structure Env where
  findByID : Int → Except Err ProductRequest
  findByUserID : String → Except Err (List ProductRequest)
  findPaginatedProductRequests : Int → Int → Except Err (List ProductRequest × Int)
  create : ProductRequest → Except Err Unit
  update : ProductRequest → Except Err Unit
  userFindByID : String → Except Err User
  offerGetByID : Int → Except Err Offer
  uploadFile : String → Reader → Int → String → String → Except Err UploadInfo
  getSignedURL : String → String → Int → Except Err String
  prNotify : ProductRequest → Except Err Unit
  cfg : Config

deriving instance DecidableEq for Except

/-- `isPre sep s` decides whether `sep` is a prefix of `s`. -/
def isPre : List Char → List Char → Bool
  | [], _ => true
  | _ :: _, [] => false
  | a :: as, b :: bs => a = b && isPre as bs

/-- Locate the first occurrence of the (nonempty) separator `sep` in `s`,
returning the text before it and the text after it. -/
def findSep (sep : List Char) : List Char → Option (List Char × List Char)
  | [] => none
  | c :: cs =>
    if isPre sep (c :: cs) then some ([], (c :: cs).drop sep.length)
    else
      match findSep sep cs with
      | none => none
      | some (pre, post) => some (c :: pre, post)

/-- Go `strings.SplitN(s, sep, 2)` for a nonempty separator: split at the
first occurrence of `sep` only; a separator-free string stays whole. -/
def splitN2 (s sep : String) : List String :=
  match findSep sep.data s.data with
  | none => [s]
  | some (pre, post) => [String.mk pre, String.mk post]

/-- Nanoseconds per unit, as in Go's `time` package. -/
def unitScale : String → Option Int
  | "ns" => some 1
  | "us" => some 1000
  | "ms" => some 1000000
  | "s" => some 1000000000
  | "m" => some 60000000000
  | "h" => some 3600000000000
  | _ => none

/-- Helper for `parseDurGo`: consume `(digits, unit)` segments, summing
nanoseconds. The fuel argument only bounds recursion; it is never exhausted
when called with more fuel than characters. -/
def parseDurSegs : Nat → List Char → Except Err Int
  | _, [] => .ok 0
  | 0, _ => .error .invalidDuration
  | fuel + 1, cs =>
    let ds := cs.takeWhile Char.isDigit
    let rest := cs.dropWhile Char.isDigit
    if ds = [] then .error .invalidDuration
    else
      let n : Int := Int.ofNat (ds.foldl (fun acc c => acc * 10 + (c.toNat - 48)) 0)
      let us := rest.takeWhile (fun c => ¬ c.isDigit)
      let rest2 := rest.dropWhile (fun c => ¬ c.isDigit)
      match unitScale (String.mk us) with
      | none => .error .invalidDuration
      | some scale =>
        match parseDurSegs fuel rest2 with
        | .error e => .error e
        | .ok acc => .ok (n * scale + acc)

/-- Modelled from Go stdlib `time.ParseDuration`, restricted to the subset the
configuration uses: a nonnegative sequence of integer-plus-unit segments such
as `"15m"` or `"1h30m"` (no sign, no fractional part), returning nanoseconds.
`"0"` alone and the empty string follow Go's special cases. -/
def parseDurGo (s : String) : Except Err Int :=
  if s = "0" then .ok 0
  else if s = "" then .error .invalidDuration
  else parseDurSegs (s.length + 1) s.data

/-- `UpdateProductRequestStatus` (productRequest.go:53–98), line by line:
load the request; guard `SelectedOfferID == nil`; load the caller's user;
load the selected offer; non-admin callers must own the selected offer and
may only set `Purchased`; write the new status; notify. -/
def UpdateProductRequestStatus (env : Env) (req : UpdateProductRequestStatusDTO)
    (prID : Int) (userID : String) : Except Failure Unit × List Effect :=
  match env.findByID prID with
  | .error e => (.error (.err e), [.findRequest prID])
  | .ok productRequest =>
    match productRequest.selectedOfferID with
    | none => (.error (.err .couldNotUpdateStatus), [.findRequest prID])
    | some selID =>
      match env.userFindByID userID with
      | .error e => (.error (.err e), [.findRequest prID, .userLookup userID])
      | .ok user =>
        match env.offerGetByID selID with
        | .error e =>
          (.error (.err e), [.findRequest prID, .userLookup userID, .offerLookup selID])
        | .ok offer =>
          let effs := [Effect.findRequest prID, .userLookup userID, .offerLookup selID]
          let proceed : Except Failure Unit × List Effect :=
            let updated := { productRequest with deliveryStatus := req.deliveryStatus }
            match env.update updated with
            | .error e => (.error (.err e), effs ++ [.storeUpdate updated])
            | .ok _ =>
              match env.prNotify updated with
              | .error e =>
                (.error (.err e), effs ++ [.storeUpdate updated, .notify updated])
              | .ok _ => (.ok (), effs ++ [.storeUpdate updated, .notify updated])
          if user.role ≠ Admin then
            if offer.userID ≠ userID then (.error (.err .permissionDenied), effs)
            else if req.deliveryStatus ≠ Purchased then (.error (.err .permissionDenied), effs)
            else proceed
          else proceed

/-- `UpdateProductRequest` (productRequest.go:100–142): load the request;
dereference `*productRequest.UserID` (a nil owner pointer panics) and compare
with the caller; load the offer named by the DTO; require its id to occur in
the request's own offers; overwrite the fields and persist. -/
def UpdateProductRequest (env : Env) (req : UpdateProductRequestDTO)
    (prID : Int) (userID : String) : Except Failure Unit × List Effect :=
  match env.findByID prID with
  | .error e => (.error (.err e), [.findRequest prID])
  | .ok productRequest =>
    match productRequest.userID with
    | none => (.error (.panic .nilPointerDereference), [.findRequest prID])
    | some owner =>
      if owner ≠ userID then
        (.error (.err .permissionDenied), [.findRequest prID])
      else
        match env.offerGetByID req.selectedOfferID with
        | .error e =>
          (.error (.err e), [.findRequest prID, .offerLookup req.selectedOfferID])
        | .ok offer =>
          let effs := [Effect.findRequest prID, .offerLookup req.selectedOfferID]
          let found := productRequest.offers.any (fun o => o.id = offer.id)
          if ¬ found then
            (.error (.err .permissionDenied), effs)
          else
            let updated := { productRequest with
              name := req.name
              desc := req.desc
              budget := req.budget
              category := req.category
              quantity := req.quantity
              selectedOfferID := some req.selectedOfferID
              selectedOffer := some offer }
            match env.update updated with
            | .error e => (.error (.err e), effs ++ [.storeUpdate updated])
            | .ok _ => (.ok (), effs ++ [.storeUpdate updated])

/-- The upload call of `CreateProductRequest` (productRequest.go:149):
filename, reader, size, Content-Type and the fixed namespace. -/
def upCall (env : Env) (file : FileHeader) (reader : Reader) : Except Err UploadInfo :=
  env.uploadFile file.filename reader file.size file.contentType
    "product-request-images"

/-- The first loop of `CreateProductRequest` (productRequest.go:146–155):
upload each file, pairing `readers[i]` positionally (an out-of-range index
panics), collecting the upload infos in order and stopping at the first
error. -/
def uploadAll (env : Env) : List FileHeader → List Reader →
    Except Failure (List UploadInfo) × List Effect
  | [], _ => (.ok [], [])
  | _file :: _, [] => (.error (.panic .indexOutOfRange), [])
  | file :: files, reader :: readers =>
    match upCall env file reader with
    | .error e => (.error (.err e), [.upload file.filename])
    | .ok info =>
      match uploadAll env files readers with
      | (.error f, effs) => (.error f, .upload file.filename :: effs)
      | (.ok infos, effs) => (.ok (info :: infos), .upload file.filename :: effs)

/-- `CreateProductRequest` (productRequest.go:144–171): upload all files,
build the `"<bucket>/<key>"` URI list in order, overwrite the request's
image list, persist. -/
def CreateProductRequest (env : Env) (productRequest : ProductRequest)
    (files : List FileHeader) (readers : List Reader) :
    Except Failure Unit × List Effect :=
  match uploadAll env files readers with
  | (.error f, effs) => (.error f, effs)
  | (.ok uploadInfos, effs) =>
    let uris := uploadInfos.map (fun info => info.bucket ++ "/" ++ info.key)
    let updated := { productRequest with images := uris }
    match env.create updated with
    | .error e => (.error (.err e), effs ++ [.storeCreate updated])
    | .ok _ => (.ok (), effs ++ [.storeCreate updated])

/-- The loop of `getUrls` (productRequest.go:180–187): split each image URI at
the first `"hewpao-s3/"`, index element 1 of the split (panicking when the
separator is absent), and sign the remainder. -/
def getUrlsLoop (env : Env) (duration : Int) :
    List String → Except Failure (List String) × List Effect
  | [] => (.ok [], [])
  | img :: rest =>
    let path := splitN2 img "hewpao-s3/"
    match path.get? 1 with
    | none => (.error (.panic .indexOutOfRange), [])
    | some p =>
      match env.getSignedURL env.cfg.s3BucketName p duration with
      | .error e => (.error (.err e), [.signURL env.cfg.s3BucketName p duration])
      | .ok url =>
        match getUrlsLoop env duration rest with
        | (.error f, effs) =>
          (.error f, .signURL env.cfg.s3BucketName p duration :: effs)
        | (.ok urls, effs) =>
          (.ok (url :: urls), .signURL env.cfg.s3BucketName p duration :: effs)

/-- The object path `getUrls` extracts from a stored image URI: the text after
the first occurrence of `"hewpao-s3/"` (`path[1]` in the source), or `none`
when the separator does not occur in the URI. -/
def afterSep (img : String) : Option String :=
  (splitN2 img "hewpao-s3/").get? 1

/-- `getUrls` (productRequest.go:173–189): parse the configured expiration
once per call, then resolve every stored image URI to a signed URL. -/
def getUrls (env : Env) (productRequest : ProductRequest) :
    Except Failure (List String) × List Effect :=
  match parseDurGo env.cfg.s3Expiration with
  | .error e => (.error (.err e), [])
  | .ok duration => getUrlsLoop env duration productRequest.images

/-- `GetDetailByID` (productRequest.go:191–217): load the request, resolve its
image URLs, and project the detail response (transactions included). -/
def GetDetailByID (env : Env) (id : Int) :
    Except Failure DetailOfProductRequestResponseDTO × List Effect :=
  match env.findByID id with
  | .error e => (.error (.err e), [.findRequest id])
  | .ok productRequest =>
    match getUrls env productRequest with
    | (.error f, effs) => (.error f, .findRequest id :: effs)
    | (.ok urls, effs) =>
      (.ok { id := productRequest.id
             desc := productRequest.desc
             category := productRequest.category
             images := urls
             budget := productRequest.budget
             quantity := productRequest.quantity
             userID := productRequest.userID
             offers := productRequest.offers
             transactions := productRequest.transactions
             createdAt := productRequest.createdAt
             updatedAt := productRequest.updatedAt
             deletedAt := productRequest.deletedAtTime },
       .findRequest id :: effs)

/-- Shared projection loop of `GetBuyerProductRequestsByUserID` and
`GetPaginatedProductRequests` (productRequest.go:227–248, 263–282): resolve
each request's URLs and project it (transactions left at their zero value). -/
def projectAll (env : Env) :
    List ProductRequest → Except Failure (List DetailOfProductRequestResponseDTO) × List Effect
  | [] => (.ok [], [])
  | productRequest :: rest =>
    match getUrls env productRequest with
    | (.error f, effs) => (.error f, effs)
    | (.ok urls, effs) =>
      let dto : DetailOfProductRequestResponseDTO :=
        { id := productRequest.id
          desc := productRequest.desc
          category := productRequest.category
          images := urls
          budget := productRequest.budget
          quantity := productRequest.quantity
          userID := productRequest.userID
          offers := productRequest.offers
          createdAt := productRequest.createdAt
          updatedAt := productRequest.updatedAt
          deletedAt := productRequest.deletedAtTime }
      match projectAll env rest with
      | (.error f, effs2) => (.error f, effs ++ effs2)
      | (.ok dtos, effs2) => (.ok (dto :: dtos), effs ++ effs2)

/-- `GetBuyerProductRequestsByUserID` (productRequest.go:219–251). -/
def GetBuyerProductRequestsByUserID (env : Env) (id : String) :
    Except Failure (List DetailOfProductRequestResponseDTO) × List Effect :=
  match env.findByUserID id with
  | .error e => (.error (.err e), [.findByUser id])
  | .ok productRequests =>
    match projectAll env productRequests with
    | (.error f, effs) => (.error f, .findByUser id :: effs)
    | (.ok res, effs) => (.ok res, .findByUser id :: effs)

/-- `GetPaginatedProductRequests` (productRequest.go:253–293): fetch the page
and total row count, compute `totalPages = (totalRows + limit - 1) / limit`
with Go's truncating integer division (a zero divisor panics), project each
row, and assemble the response. -/
def GetPaginatedProductRequests (env : Env) (page limit : Int) :
    Except Failure PaginationGetProductRequestResponse × List Effect :=
  match env.findPaginatedProductRequests page limit with
  | .error e => (.error (.err e), [.findPage page limit])
  | .ok (productRequests, totalRows) =>
    if limit = 0 then (.error (.panic .divideByZero), [.findPage page limit])
    else
      let totalPages := Int.tdiv (totalRows + limit - 1) limit
      match projectAll env productRequests with
      | (.error f, effs) => (.error f, .findPage page limit :: effs)
      | (.ok dest, effs) =>
        (.ok { data := dest
               page := page
               limit := limit
               totalRows := totalRows
               totalPages := totalPages },
         .findPage page limit :: effs)

/-! ## Concrete fixtures for the witnesses -/

/-- The selected offer of the sample request, owned by `"traveler-1"`. -/
def sampleOffer : Offer := { id := 5, userID := "traveler-1" }

/-- A sample request owned by `"owner-1"` with offer 5 selected. -/
def samplePR : ProductRequest :=
  { id := 1, userID := some "owner-1", name := "bag", desc := "a bag"
    budget := 100, category := "fashion", quantity := 1
    images := ["hewpao-s3/images/a.png"]
    offers := [sampleOffer]
    selectedOfferID := some 5, selectedOffer := some sampleOffer
    deliveryStatus := "Opening", transactions := [], createdAt := 0, updatedAt := 0
    deletedAtTime := 0 }

/-- An environment whose stores answer every lookup with the given fixtures
and whose writes, uploads and notifications all succeed. -/
def sampleEnv (pr : ProductRequest) (user : User) (offer : Offer) : Env :=
  { findByID := fun _ => .ok pr
    findByUserID := fun _ => .ok [pr]
    findPaginatedProductRequests := fun _ _ => .ok ([pr], 1)
    create := fun _ => .ok ()
    update := fun _ => .ok ()
    userFindByID := fun _ => .ok user
    offerGetByID := fun _ => .ok offer
    uploadFile := fun name _ _ _ _ => .ok { bucket := "hewpao-s3", key := name }
    getSignedURL := fun b p _ => .ok ("https://signed/" ++ b ++ "/" ++ p)
    prNotify := fun _ => .ok ()
    cfg := { s3Expiration := "15m", s3BucketName := "hewpao-s3" } }

/-- Two files for the create witness. -/
def sampleFiles : List FileHeader :=
  [{ filename := "a.png", size := 10, contentType := "image/png" },
   { filename := "b.png", size := 20, contentType := "image/png" }]

/-- Their positionally paired readers. -/
def sampleReaders : List Reader := [{ tag := 0 }, { tag := 1 }]

/-- The upload infos `sampleEnv` returns for the two files. -/
def sampleInfos : List UploadInfo :=
  [{ bucket := "hewpao-s3", key := "a.png" }, { bucket := "hewpao-s3", key := "b.png" }]

/-! ## Claims about UpdateProductRequestStatus -/

/-- C1: with the request found and an offer selected, an admin caller may set
any status; a non-admin caller who does not own the selected offer is denied;
a non-admin owner of the selected offer succeeds exactly when the target
status is "Purchased" and is denied otherwise. -/
theorem updateStatus_authorization (env : Env) (req : UpdateProductRequestStatusDTO)
    (prID : Int) (userID : String) (productRequest : ProductRequest) (selID : Int)
    (user : User) (offer : Offer)
    (hfind : env.findByID prID = .ok productRequest)
    (hsel : productRequest.selectedOfferID = some selID)
    (huser : env.userFindByID userID = .ok user)
    (hoffer : env.offerGetByID selID = .ok offer)
    (hupd : ∀ p, env.update p = .ok ())
    (hnote : ∀ p, env.prNotify p = .ok ()) :
    (user.role = Admin →
      (UpdateProductRequestStatus env req prID userID).1 = .ok () ∧
      Effect.storeUpdate { productRequest with deliveryStatus := req.deliveryStatus } ∈
        (UpdateProductRequestStatus env req prID userID).2) ∧
    (user.role ≠ Admin → offer.userID ≠ userID →
      (UpdateProductRequestStatus env req prID userID).1 =
        .error (.err .permissionDenied)) ∧
    (user.role ≠ Admin → offer.userID = userID → req.deliveryStatus = Purchased →
      (UpdateProductRequestStatus env req prID userID).1 = .ok ()) ∧
    (user.role ≠ Admin → offer.userID = userID → req.deliveryStatus ≠ Purchased →
      (UpdateProductRequestStatus env req prID userID).1 =
        .error (.err .permissionDenied)) := by
  refine ⟨fun hadm => ?_, fun hadm hown => ?_, fun hadm hown hst => ?_,
    fun hadm hown hst => ?_⟩
  · simp [UpdateProductRequestStatus, hfind, hsel, huser, hoffer, hupd, hnote, hadm]
  · simp [UpdateProductRequestStatus, hfind, hsel, huser, hoffer, hadm, hown]
  · simp [UpdateProductRequestStatus, hfind, hsel, huser, hoffer, hupd, hnote,
      hadm, hown, hst]
  · simp [UpdateProductRequestStatus, hfind, hsel, huser, hoffer, hadm, hown, hst]

/-- Witness for C1 at concrete inputs: an admin sets "Delivered"; the selected
offer's owner sets "Purchased" but is denied "Delivered"; a stranger is
denied. -/
theorem updateStatus_authorization_witness :
    ((UpdateProductRequestStatus (sampleEnv samplePR { id := "a", role := "Admin" } sampleOffer)
        { deliveryStatus := "Delivered" } 1 "a").1 = .ok () ∧
      Effect.storeUpdate { samplePR with deliveryStatus := "Delivered" } ∈
        (UpdateProductRequestStatus (sampleEnv samplePR { id := "a", role := "Admin" } sampleOffer)
          { deliveryStatus := "Delivered" } 1 "a").2) ∧
    (UpdateProductRequestStatus
        (sampleEnv samplePR { id := "traveler-1", role := "User" } sampleOffer)
        { deliveryStatus := "Purchased" } 1 "traveler-1").1 = .ok () ∧
    (UpdateProductRequestStatus
        (sampleEnv samplePR { id := "traveler-1", role := "User" } sampleOffer)
        { deliveryStatus := "Delivered" } 1 "traveler-1").1 =
      .error (.err .permissionDenied) ∧
    (UpdateProductRequestStatus
        (sampleEnv samplePR { id := "stranger", role := "User" } sampleOffer)
        { deliveryStatus := "Purchased" } 1 "stranger").1 =
      .error (.err .permissionDenied) := by
  refine ⟨?_, ?_, ?_, ?_⟩
  · exact (updateStatus_authorization
      (sampleEnv samplePR { id := "a", role := "Admin" } sampleOffer)
      { deliveryStatus := "Delivered" } 1 "a" samplePR 5
      { id := "a", role := "Admin" } sampleOffer rfl rfl rfl rfl
      (fun _ => rfl) (fun _ => rfl)).1 rfl
  · exact ((updateStatus_authorization
      (sampleEnv samplePR { id := "traveler-1", role := "User" } sampleOffer)
      { deliveryStatus := "Purchased" } 1 "traveler-1" samplePR 5
      { id := "traveler-1", role := "User" } sampleOffer rfl rfl rfl rfl
      (fun _ => rfl) (fun _ => rfl)).2.2.1 (by decide) rfl rfl)
  · exact ((updateStatus_authorization
      (sampleEnv samplePR { id := "traveler-1", role := "User" } sampleOffer)
      { deliveryStatus := "Delivered" } 1 "traveler-1" samplePR 5
      { id := "traveler-1", role := "User" } sampleOffer rfl rfl rfl rfl
      (fun _ => rfl) (fun _ => rfl)).2.2.2 (by decide) rfl (by decide))
  · exact ((updateStatus_authorization
      (sampleEnv samplePR { id := "stranger", role := "User" } sampleOffer)
      { deliveryStatus := "Purchased" } 1 "stranger" samplePR 5
      { id := "stranger", role := "User" } sampleOffer rfl rfl rfl rfl
      (fun _ => rfl) (fun _ => rfl)).2.1 (by decide) (by decide))

/-- C2: when the found request has no selected offer, the operation returns
the dedicated cannot-update-status error for every caller, and its only
collaborator call is the initial request load: no user lookup, offer lookup,
store write or notification happens. -/
theorem updateStatus_noSelectedOffer (env : Env) (req : UpdateProductRequestStatusDTO)
    (prID : Int) (userID : String) (productRequest : ProductRequest)
    (hfind : env.findByID prID = .ok productRequest)
    (hsel : productRequest.selectedOfferID = none) :
    (UpdateProductRequestStatus env req prID userID).1 =
      .error (.err .couldNotUpdateStatus) ∧
    (UpdateProductRequestStatus env req prID userID).2 = [.findRequest prID] := by
  simp [UpdateProductRequestStatus, hfind, hsel]

/-- Witness for C2: a request with `selectedOfferID = none`, called by an
admin, still fails with the cannot-update-status error after only the load. -/
theorem updateStatus_noSelectedOffer_witness :
    (UpdateProductRequestStatus
        (sampleEnv { samplePR with selectedOfferID := none }
          { id := "a", role := "Admin" } sampleOffer)
        { deliveryStatus := "Purchased" } 1 "a").1 =
      .error (.err .couldNotUpdateStatus) ∧
    (UpdateProductRequestStatus
        (sampleEnv { samplePR with selectedOfferID := none }
          { id := "a", role := "Admin" } sampleOffer)
        { deliveryStatus := "Purchased" } 1 "a").2 = [.findRequest 1] :=
  updateStatus_noSelectedOffer
    (sampleEnv { samplePR with selectedOfferID := none }
      { id := "a", role := "Admin" } sampleOffer)
    { deliveryStatus := "Purchased" } 1 "a" { samplePR with selectedOfferID := none }
    rfl rfl

/-- C3: once the guards pass, the status write is performed first and the
notifier is then invoked with the updated request; a notifier error becomes
the operation's result even though the write already happened, as the ordered
effect trace shows. -/
theorem updateStatus_notifierError (env : Env) (req : UpdateProductRequestStatusDTO)
    (prID : Int) (userID : String) (productRequest : ProductRequest) (selID : Int)
    (user : User) (offer : Offer) (e : Err)
    (hfind : env.findByID prID = .ok productRequest)
    (hsel : productRequest.selectedOfferID = some selID)
    (huser : env.userFindByID userID = .ok user)
    (hoffer : env.offerGetByID selID = .ok offer)
    (hauth : user.role = Admin ∨ (offer.userID = userID ∧ req.deliveryStatus = Purchased))
    (hupd : env.update { productRequest with deliveryStatus := req.deliveryStatus } = .ok ())
    (hnote : env.prNotify { productRequest with deliveryStatus := req.deliveryStatus } =
      .error e) :
    (UpdateProductRequestStatus env req prID userID).1 = .error (.err e) ∧
    (UpdateProductRequestStatus env req prID userID).2 =
      [.findRequest prID, .userLookup userID, .offerLookup selID,
       .storeUpdate { productRequest with deliveryStatus := req.deliveryStatus },
       .notify { productRequest with deliveryStatus := req.deliveryStatus }] := by
  simp only [hsel] at hupd hnote
  rcases hauth with hadm | ⟨hown, hst⟩
  · simp [UpdateProductRequestStatus, hfind, hsel, huser, hoffer, hupd, hnote, hadm]
  · rcases eq_or_ne user.role Admin with hadm | hadm
    · simp [UpdateProductRequestStatus, hfind, hsel, huser, hoffer, hupd, hnote, hadm]
    · simp only [hst] at hupd hnote
      simp [UpdateProductRequestStatus, hfind, hsel, huser, hoffer, hupd, hnote,
        hadm, hown, hst]

/-- Witness for C3: with a failing notifier, the admin's status update returns
the notifier's error while the trace shows the store write already done. -/
theorem updateStatus_notifierError_witness :
    (UpdateProductRequestStatus
        { sampleEnv samplePR { id := "a", role := "Admin" } sampleOffer with
            prNotify := fun _ => .error (.other "smtp down") }
        { deliveryStatus := "Delivered" } 1 "a").1 =
      .error (.err (.other "smtp down")) ∧
    (UpdateProductRequestStatus
        { sampleEnv samplePR { id := "a", role := "Admin" } sampleOffer with
            prNotify := fun _ => .error (.other "smtp down") }
        { deliveryStatus := "Delivered" } 1 "a").2 =
      [.findRequest 1, .userLookup "a", .offerLookup 5,
       .storeUpdate { samplePR with deliveryStatus := "Delivered" },
       .notify { samplePR with deliveryStatus := "Delivered" }] :=
  updateStatus_notifierError
    { sampleEnv samplePR { id := "a", role := "Admin" } sampleOffer with
        prNotify := fun _ => .error (.other "smtp down") }
    { deliveryStatus := "Delivered" } 1 "a" samplePR 5
    { id := "a", role := "Admin" } sampleOffer (.other "smtp down")
    rfl rfl rfl rfl (Or.inl rfl) rfl rfl

/-! ## Claims about UpdateProductRequest -/

/-- C4: when the caller owns the request and the referenced offer exists
globally but its id matches no offer already attached to the request, the
update is denied and nothing is written to the store. -/
theorem updateRequest_offerNotInSet (env : Env) (req : UpdateProductRequestDTO)
    (prID : Int) (userID : String) (productRequest : ProductRequest) (offer : Offer)
    (hfind : env.findByID prID = .ok productRequest)
    (howner : productRequest.userID = some userID)
    (hoffer : env.offerGetByID req.selectedOfferID = .ok offer)
    (hnotin : ∀ o ∈ productRequest.offers, o.id ≠ offer.id) :
    (UpdateProductRequest env req prID userID).1 = .error (.err .permissionDenied) ∧
    ∀ q, Effect.storeUpdate q ∉ (UpdateProductRequest env req prID userID).2 := by
  have hany : productRequest.offers.any (fun o => o.id = offer.id) = false := by
    simp only [List.any_eq_false, decide_eq_true_eq]
    exact hnotin
  simp [UpdateProductRequest, hfind, howner, hoffer, hany]

/-- Witness for C4: offer 9 exists in the offer store but request 1 only
carries offer 5, so selecting offer 9 is denied without a store write. -/
theorem updateRequest_offerNotInSet_witness :
    (UpdateProductRequest
        (sampleEnv samplePR { id := "owner-1", role := "User" } { id := 9, userID := "t9" })
        { name := "bag", desc := "a bag", budget := 100, category := "fashion",
          quantity := 1, selectedOfferID := 9 } 1 "owner-1").1 =
      .error (.err .permissionDenied) ∧
    ∀ q, Effect.storeUpdate q ∉
      (UpdateProductRequest
        (sampleEnv samplePR { id := "owner-1", role := "User" } { id := 9, userID := "t9" })
        { name := "bag", desc := "a bag", budget := 100, category := "fashion",
          quantity := 1, selectedOfferID := 9 } 1 "owner-1").2 :=
  updateRequest_offerNotInSet
    (sampleEnv samplePR { id := "owner-1", role := "User" } { id := 9, userID := "t9" })
    { name := "bag", desc := "a bag", budget := 100, category := "fashion",
      quantity := 1, selectedOfferID := 9 } 1 "owner-1" samplePR
    { id := 9, userID := "t9" } rfl rfl rfl (by decide)

/-- C5: when the caller is not the request's owner, the update is denied
right after the load: the trace holds the request load alone, so no offer
lookup and no store write happen. -/
theorem updateRequest_notOwner (env : Env) (req : UpdateProductRequestDTO)
    (prID : Int) (userID : String) (productRequest : ProductRequest) (owner : String)
    (hfind : env.findByID prID = .ok productRequest)
    (howner : productRequest.userID = some owner)
    (hneq : owner ≠ userID) :
    (UpdateProductRequest env req prID userID).1 = .error (.err .permissionDenied) ∧
    (UpdateProductRequest env req prID userID).2 = [.findRequest prID] := by
  simp [UpdateProductRequest, hfind, howner, hneq]

/-- Witness for C5: a stranger selecting the request's own valid offer 5 is
still denied, with only the request load in the trace. -/
theorem updateRequest_notOwner_witness :
    (UpdateProductRequest
        (sampleEnv samplePR { id := "stranger", role := "User" } sampleOffer)
        { name := "bag", desc := "a bag", budget := 100, category := "fashion",
          quantity := 1, selectedOfferID := 5 } 1 "stranger").1 =
      .error (.err .permissionDenied) ∧
    (UpdateProductRequest
        (sampleEnv samplePR { id := "stranger", role := "User" } sampleOffer)
        { name := "bag", desc := "a bag", budget := 100, category := "fashion",
          quantity := 1, selectedOfferID := 5 } 1 "stranger").2 = [.findRequest 1] :=
  updateRequest_notOwner
    (sampleEnv samplePR { id := "stranger", role := "User" } sampleOffer)
    { name := "bag", desc := "a bag", budget := 100, category := "fashion",
      quantity := 1, selectedOfferID := 5 } 1 "stranger" samplePR "owner-1"
    rfl rfl (by decide)

/-- C10: a stored request whose owner reference is unset makes
`UpdateProductRequest` fault with a nil-pointer dereference at
`*productRequest.UserID`, before any authorization verdict, offer lookup or
store write, instead of returning an error value. -/
theorem updateRequest_nilOwner (env : Env) (req : UpdateProductRequestDTO)
    (prID : Int) (userID : String) (productRequest : ProductRequest)
    (hfind : env.findByID prID = .ok productRequest)
    (howner : productRequest.userID = none) :
    (UpdateProductRequest env req prID userID).1 =
      .error (.panic .nilPointerDereference) ∧
    (UpdateProductRequest env req prID userID).2 = [.findRequest prID] := by
  simp [UpdateProductRequest, hfind, howner]

/-- Witness for C10: request 1 with `userID = none` panics for any caller. -/
theorem updateRequest_nilOwner_witness :
    (UpdateProductRequest
        (sampleEnv { samplePR with userID := none } { id := "a", role := "Admin" } sampleOffer)
        { name := "bag", desc := "a bag", budget := 100, category := "fashion",
          quantity := 1, selectedOfferID := 5 } 1 "a").1 =
      .error (.panic .nilPointerDereference) ∧
    (UpdateProductRequest
        (sampleEnv { samplePR with userID := none } { id := "a", role := "Admin" } sampleOffer)
        { name := "bag", desc := "a bag", budget := 100, category := "fashion",
          quantity := 1, selectedOfferID := 5 } 1 "a").2 = [.findRequest 1] :=
  updateRequest_nilOwner
    (sampleEnv { samplePR with userID := none } { id := "a", role := "Admin" } sampleOffer)
    { name := "bag", desc := "a bag", budget := 100, category := "fashion",
      quantity := 1, selectedOfferID := 5 } 1 "a" { samplePR with userID := none }
    rfl rfl

/-! ## Claims about CreateProductRequest -/

/-- A successful upload loop pairs the `i`-th file with the `i`-th reader and
yields exactly one upload info per file, in order. -/
theorem uploadAll_ok_forall (env : Env) :
    ∀ (files : List FileHeader) (readers : List Reader) (infos : List UploadInfo),
      (uploadAll env files readers).1 = .ok infos →
      List.Forall₂ (fun (p : FileHeader × Reader) info => upCall env p.1 p.2 = .ok info)
        (files.zip readers) infos ∧ infos.length = files.length := by
  intro files
  induction files with
  | nil =>
    intro readers infos h
    simp only [uploadAll] at h
    cases h
    simp
  | cons f fs ih =>
    intro readers infos h
    cases readers with
    | nil => simp [uploadAll] at h
    | cons r rs =>
      simp only [uploadAll] at h
      cases hup : upCall env f r with
      | error e => rw [hup] at h; simp at h
      | ok info =>
        rw [hup] at h
        cases hrec : uploadAll env fs rs with
        | mk res effs =>
          rw [hrec] at h
          cases res with
          | error f2 => simp at h
          | ok infos2 =>
            simp only at h
            cases h
            have hprev := ih rs infos2 (by rw [hrec])
            exact ⟨List.Forall₂.cons hup hprev.1, by simp [hprev.2]⟩

/-- The upload loop records upload calls and nothing else. -/
theorem uploadAll_effects_upload (env : Env) :
    ∀ (files : List FileHeader) (readers : List Reader) (eff : Effect),
      eff ∈ (uploadAll env files readers).2 → ∃ n, eff = Effect.upload n := by
  intro files
  induction files with
  | nil => intro readers eff h; simp [uploadAll] at h
  | cons f fs ih =>
    intro readers eff h
    cases readers with
    | nil => simp [uploadAll] at h
    | cons r rs =>
      simp only [uploadAll] at h
      cases hup : upCall env f r with
      | error e =>
        rw [hup] at h
        simp at h
        exact ⟨f.filename, h⟩
      | ok info =>
        rw [hup] at h
        cases hrec : uploadAll env fs rs with
        | mk res effs =>
          rw [hrec] at h
          cases res with
          | error f2 =>
            simp at h
            rcases h with h | h
            · exact ⟨f.filename, h⟩
            · exact ih rs eff (by rw [hrec]; exact h)
          | ok infos2 =>
            simp at h
            rcases h with h | h
            · exact ⟨f.filename, h⟩
            · exact ih rs eff (by rw [hrec]; exact h)

/-- When every upload before position `i` succeeds and the `i`-th fails, the
upload loop stops with exactly that error. -/
theorem uploadAll_error (env : Env)
    (pre : List FileHeader) (rpre : List Reader) (fbad : FileHeader) (rbad : Reader)
    (post : List FileHeader) (rpost : List Reader) (e : Err)
    (hpre : List.Forall₂ (fun f r => ∃ info, upCall env f r = .ok info) pre rpre)
    (hbad : upCall env fbad rbad = .error e) :
    (uploadAll env (pre ++ fbad :: post) (rpre ++ rbad :: rpost)).1 =
      .error (.err e) := by
  induction hpre with
  | nil => simp [uploadAll, hbad]
  | cons hfr _ ih =>
    obtain ⟨info, hinfo⟩ := hfr
    simp only [List.cons_append, uploadAll, hinfo]
    cases hrec : uploadAll env (_ ++ fbad :: post) (_ ++ rbad :: rpost) with
    | mk res effs =>
      rw [hrec] at ih
      cases res with
      | error f2 => cases ih; rfl
      | ok infos2 => simp at ih

/-- C6: `CreateProductRequest` with positionally paired files. On upload
success the created request's image list is one `"<bucket>/<key>"` string per
file, in file order, overwriting the caller's list, and the store create runs
afterwards; when the upload of some file fails after successful earlier
uploads, that error is returned and no store create is recorded. -/
theorem createProductRequest_spec (env : Env) (productRequest : ProductRequest)
    (files : List FileHeader) (readers : List Reader) :
    (∀ infos, (uploadAll env files readers).1 = .ok infos →
      (infos.map fun info => info.bucket ++ "/" ++ info.key).length = files.length ∧
      List.Forall₂ (fun (p : FileHeader × Reader) info => upCall env p.1 p.2 = .ok info)
        (files.zip readers) infos ∧
      (CreateProductRequest env productRequest files readers).2 =
        (uploadAll env files readers).2 ++
          [Effect.storeCreate { productRequest with
            images := infos.map fun info => info.bucket ++ "/" ++ info.key }] ∧
      (env.create { productRequest with
          images := infos.map fun info => info.bucket ++ "/" ++ info.key } = .ok () →
        (CreateProductRequest env productRequest files readers).1 = .ok ())) ∧
    (∀ (pre : List FileHeader) (rpre : List Reader) fbad rbad post rpost e,
      files = pre ++ fbad :: post → readers = rpre ++ rbad :: rpost →
      List.Forall₂ (fun f r => ∃ info, upCall env f r = .ok info) pre rpre →
      upCall env fbad rbad = .error e →
      (CreateProductRequest env productRequest files readers).1 = .error (.err e) ∧
      ∀ q, Effect.storeCreate q ∉
        (CreateProductRequest env productRequest files readers).2) := by
  constructor
  · intro infos h
    have hforall := uploadAll_ok_forall env files readers infos h
    cases hua : uploadAll env files readers with
    | mk res effs =>
      rw [hua] at h
      cases res with
      | error f2 => simp at h
      | ok infos2 =>
        simp only at h
        cases h
        refine ⟨by simp [hforall.2], hforall.1, ?_, ?_⟩
        · simp only [CreateProductRequest, hua]
          split <;> rfl
        · intro hcr
          simp [CreateProductRequest, hua, hcr]
  · intro pre rpre fbad rbad post rpost e hf hr hpre hbad
    subst hf; subst hr
    have herr := uploadAll_error env pre rpre fbad rbad post rpost e hpre hbad
    cases hua : uploadAll env (pre ++ fbad :: post) (rpre ++ rbad :: rpost) with
    | mk res effs =>
      rw [hua] at herr
      cases res with
      | ok infos2 => simp at herr
      | error f2 =>
        cases herr
        constructor
        · simp [CreateProductRequest, hua]
        · intro q hq
          have : Effect.storeCreate q ∈ effs := by
            simpa [CreateProductRequest, hua] using hq
          obtain ⟨n, hn⟩ := uploadAll_effects_upload env
            (pre ++ fbad :: post) (rpre ++ rbad :: rpost) (Effect.storeCreate q)
            (by rw [hua]; exact this)
          cases hn

/-- Witness for C6: two files upload to `hewpao-s3/a.png` and `hewpao-s3/b.png`;
the created request carries exactly those two URIs in order and the trace ends
with the store create. -/
theorem createProductRequest_spec_witness :
    (uploadAll (sampleEnv samplePR { id := "a", role := "Admin" } sampleOffer)
        sampleFiles sampleReaders).1 = .ok sampleInfos ∧
    (sampleInfos.map fun info => info.bucket ++ "/" ++ info.key).length =
      sampleFiles.length ∧
    List.Forall₂
      (fun (p : FileHeader × Reader) info =>
        upCall (sampleEnv samplePR { id := "a", role := "Admin" } sampleOffer) p.1 p.2 =
          .ok info)
      (sampleFiles.zip sampleReaders) sampleInfos ∧
    (CreateProductRequest (sampleEnv samplePR { id := "a", role := "Admin" } sampleOffer)
        samplePR sampleFiles sampleReaders).2 =
      (uploadAll (sampleEnv samplePR { id := "a", role := "Admin" } sampleOffer)
          sampleFiles sampleReaders).2 ++
        [Effect.storeCreate { samplePR with
          images := sampleInfos.map fun info => info.bucket ++ "/" ++ info.key }] ∧
    (CreateProductRequest (sampleEnv samplePR { id := "a", role := "Admin" } sampleOffer)
        samplePR sampleFiles sampleReaders).1 = .ok () := by
  have h := (createProductRequest_spec
    (sampleEnv samplePR { id := "a", role := "Admin" } sampleOffer)
    samplePR sampleFiles sampleReaders).1 sampleInfos rfl
  exact ⟨rfl, h.1, h.2.1, h.2.2.1, h.2.2.2 rfl⟩

/-! ## Claims about URL resolution -/

/-- With a total signer, the resolution loop over well-formed URIs signs the
text after the first separator of each URI, in order, and returns the signer's
URLs unchanged. -/
theorem getUrlsLoop_ok (env : Env) (d : Int) (sigFn : String → String → Int → String)
    (hsig : ∀ b p dd, env.getSignedURL b p dd = .ok (sigFn b p dd)) :
    ∀ imgs : List String, (∀ img ∈ imgs, ∃ r, afterSep img = some r) →
      getUrlsLoop env d imgs =
        (.ok (imgs.map fun img =>
            sigFn env.cfg.s3BucketName ((afterSep img).getD "") d),
         imgs.map fun img =>
            Effect.signURL env.cfg.s3BucketName ((afterSep img).getD "") d) := by
  intro imgs
  induction imgs with
  | nil => intro _; simp [getUrlsLoop]
  | cons img rest ih =>
    intro hall
    obtain ⟨r, hr⟩ := hall img (by simp)
    have hrest := ih (fun i hi => hall i (by simp [hi]))
    simp [afterSep] at hr
    simp [getUrlsLoop, hr, hsig, hrest, afterSep]

/-- C8: with the configured expiration parsing to `d` and a signer that
returns `sigFn b p dd` on bucket `b`, path `p` and ttl `dd`: resolving a
request whose URIs all contain `"hewpao-s3/"` calls the signer once per URI
with the configured bucket, the text after the URI's first separator, and
`d`, and `GetDetailByID` places the signer's URLs unchanged, in order, in the
response's image list. -/
theorem getUrls_signedURL_spec (env : Env) (d : Int)
    (sigFn : String → String → Int → String)
    (hdur : parseDurGo env.cfg.s3Expiration = .ok d)
    (hsig : ∀ b p dd, env.getSignedURL b p dd = .ok (sigFn b p dd)) :
    (∀ productRequest : ProductRequest,
      (∀ img ∈ productRequest.images, ∃ r, afterSep img = some r) →
      (getUrls env productRequest).1 =
        .ok (productRequest.images.map fun img =>
          sigFn env.cfg.s3BucketName ((afterSep img).getD "") d) ∧
      (getUrls env productRequest).2 =
        productRequest.images.map fun img =>
          Effect.signURL env.cfg.s3BucketName ((afterSep img).getD "") d) ∧
    (∀ (id : Int) (productRequest : ProductRequest),
      env.findByID id = .ok productRequest →
      (∀ img ∈ productRequest.images, ∃ r, afterSep img = some r) →
      ∃ res, (GetDetailByID env id).1 = .ok res ∧
        res.images = (productRequest.images.map fun img =>
          sigFn env.cfg.s3BucketName ((afterSep img).getD "") d) ∧
        (GetDetailByID env id).2 = Effect.findRequest id ::
          (productRequest.images.map fun img =>
            Effect.signURL env.cfg.s3BucketName ((afterSep img).getD "") d)) := by
  have hloop := getUrlsLoop_ok env d sigFn hsig
  constructor
  · intro productRequest hall
    simp [getUrls, hdur, hloop productRequest.images hall]
  · intro id productRequest hfind hall
    refine ⟨{ id := productRequest.id, desc := productRequest.desc,
              category := productRequest.category,
              images := productRequest.images.map fun img =>
                sigFn env.cfg.s3BucketName ((afterSep img).getD "") d,
              budget := productRequest.budget, quantity := productRequest.quantity,
              userID := productRequest.userID, offers := productRequest.offers,
              transactions := productRequest.transactions,
              createdAt := productRequest.createdAt,
              updatedAt := productRequest.updatedAt,
              deletedAt := productRequest.deletedAtTime }, ?_, rfl, ?_⟩ <;>
      simp [GetDetailByID, hfind, getUrls, hdur, hloop productRequest.images hall,
        afterSep]

/-- Witness for C8, the spec's scenario: request 7 stores
`"hewpao-s3/images/a.png"`; with bucket `"hewpao-s3"` and ttl `"15m"` the
signer is called on path `"images/a.png"` with 900000000000 ns = 15 min and
its URL comes back unchanged. -/
theorem getUrls_signedURL_spec_witness :
    parseDurGo "15m" = .ok 900000000000 ∧
    afterSep "hewpao-s3/images/a.png" = some "images/a.png" ∧
    (∃ res, (GetDetailByID
        (sampleEnv samplePR { id := "a", role := "Admin" } sampleOffer) 7).1 =
        .ok res ∧
      res.images = ["https://signed/hewpao-s3/images/a.png"] ∧
      (GetDetailByID
          (sampleEnv samplePR { id := "a", role := "Admin" } sampleOffer) 7).2 =
        [.findRequest 7, .signURL "hewpao-s3" "images/a.png" 900000000000]) := by
  have hsep : ∀ img ∈ samplePR.images, ∃ r, afterSep img = some r := by
    intro img him
    simp [samplePR] at him
    subst him
    exact ⟨"images/a.png", by decide⟩
  have h := (getUrls_signedURL_spec
    (sampleEnv samplePR { id := "a", role := "Admin" } sampleOffer)
    900000000000 (fun b p _ => "https://signed/" ++ b ++ "/" ++ p)
    (by decide) (fun b p dd => rfl)).2 7 samplePR rfl hsep
  obtain ⟨res, h1, h2, h3⟩ := h
  refine ⟨by decide, by decide, res, h1, ?_, ?_⟩
  · rw [h2]; decide
  · rw [h3]; decide

/-- With a total signer, the resolution loop over a list holding a
separator-free URI ends in the index-out-of-range panic. -/
theorem getUrlsLoop_panic (env : Env) (d : Int) (sigFn : String → String → Int → String)
    (hsig : ∀ b p dd, env.getSignedURL b p dd = .ok (sigFn b p dd)) :
    ∀ imgs : List String, (∃ img ∈ imgs, afterSep img = none) →
      (getUrlsLoop env d imgs).1 = .error (.panic .indexOutOfRange) := by
  intro imgs
  induction imgs with
  | nil => rintro ⟨img, him, _⟩; simp at him
  | cons i rest ih =>
    rintro ⟨img, him, hbad⟩
    cases hni : afterSep i with
    | none =>
      simp only [afterSep, List.get?_eq_getElem?] at hni
      simp [getUrlsLoop, hni]
    | some p =>
      rcases List.mem_cons.mp him with rfl | hmem
      · rw [hbad] at hni; cases hni
      · have hrec := ih ⟨img, hmem, hbad⟩
        simp [afterSep] at hni
        cases hr : getUrlsLoop env d rest with
        | mk res effs =>
          rw [hr] at hrec
          cases res with
          | ok us => simp at hrec
          | error f =>
            cases hrec
            simp [getUrlsLoop, hni, hsig, hr]

/-- With a total signer, projecting a list that holds a request with a
separator-free URI ends in the index-out-of-range panic. -/
theorem projectAll_panic (env : Env) (d : Int) (sigFn : String → String → Int → String)
    (hdur : parseDurGo env.cfg.s3Expiration = .ok d)
    (hsig : ∀ b p dd, env.getSignedURL b p dd = .ok (sigFn b p dd)) :
    ∀ l : List ProductRequest, (∃ q ∈ l, ∃ img ∈ q.images, afterSep img = none) →
      (projectAll env l).1 = .error (.panic .indexOutOfRange) := by
  intro l
  induction l with
  | nil => rintro ⟨q, hq, _⟩; simp at hq
  | cons q rest ih =>
    rintro ⟨q2, hq2, hbad⟩
    by_cases hq : ∃ img ∈ q.images, afterSep img = none
    · have hpanic : (getUrls env q).1 = .error (.panic .indexOutOfRange) := by
        simp only [getUrls, hdur]
        exact getUrlsLoop_panic env d sigFn hsig q.images hq
      cases hgu : getUrls env q with
      | mk res effs =>
        rw [hgu] at hpanic
        cases res with
        | ok us => simp at hpanic
        | error f =>
          cases hpanic
          simp [projectAll, hgu]
    · have hallgood : ∀ img ∈ q.images, ∃ r, afterSep img = some r := by
        intro img him
        cases h2 : afterSep img with
        | none => exact absurd ⟨img, him, h2⟩ hq
        | some r => exact ⟨r, rfl⟩
      have hgu : getUrls env q =
          (.ok (q.images.map fun img =>
            sigFn env.cfg.s3BucketName ((afterSep img).getD "") d),
           q.images.map fun img =>
            Effect.signURL env.cfg.s3BucketName ((afterSep img).getD "") d) := by
        simp only [getUrls, hdur]
        exact getUrlsLoop_ok env d sigFn hsig q.images hallgood
      rcases List.mem_cons.mp hq2 with rfl | hmem
      · exact absurd hbad hq
      · have hrec := ih ⟨q2, hmem, hbad⟩
        cases hpr : projectAll env rest with
        | mk res2 effs2 =>
          rw [hpr] at hrec
          cases res2 with
          | ok dtos => simp at hrec
          | error f =>
            cases hrec
            simp [projectAll, hgu, hpr]

/-- C9: with the configured duration parsing and a signer that always
succeeds, a request holding a stored image URI without the `"hewpao-s3/"`
separator drives URL resolution — and with it `GetDetailByID`,
`GetBuyerProductRequestsByUserID` and `GetPaginatedProductRequests` over that
request — into the index-out-of-range panic at `path[1]`, which is a runtime
fault and not a returned error value. -/
theorem malformedURI_panic (env : Env) (d : Int)
    (sigFn : String → String → Int → String)
    (hdur : parseDurGo env.cfg.s3Expiration = .ok d)
    (hsig : ∀ b p dd, env.getSignedURL b p dd = .ok (sigFn b p dd)) :
    (∀ productRequest : ProductRequest,
      (∃ img ∈ productRequest.images, afterSep img = none) →
      (getUrls env productRequest).1 = .error (.panic .indexOutOfRange)) ∧
    (∀ (id : Int) (productRequest : ProductRequest),
      env.findByID id = .ok productRequest →
      (∃ img ∈ productRequest.images, afterSep img = none) →
      (GetDetailByID env id).1 = .error (.panic .indexOutOfRange)) ∧
    (∀ (uid : String) (l : List ProductRequest),
      env.findByUserID uid = .ok l →
      (∃ q ∈ l, ∃ img ∈ q.images, afterSep img = none) →
      (GetBuyerProductRequestsByUserID env uid).1 =
        .error (.panic .indexOutOfRange)) ∧
    (∀ (page limit : Int) (rows : List ProductRequest) (totalRows : Int),
      limit ≠ 0 →
      env.findPaginatedProductRequests page limit = .ok (rows, totalRows) →
      (∃ q ∈ rows, ∃ img ∈ q.images, afterSep img = none) →
      (GetPaginatedProductRequests env page limit).1 =
        .error (.panic .indexOutOfRange)) := by
  have hone : ∀ productRequest : ProductRequest,
      (∃ img ∈ productRequest.images, afterSep img = none) →
      (getUrls env productRequest).1 = .error (.panic .indexOutOfRange) := by
    intro productRequest hbad
    simp only [getUrls, hdur]
    exact getUrlsLoop_panic env d sigFn hsig productRequest.images hbad
  refine ⟨hone, ?_, ?_, ?_⟩
  · intro id productRequest hfind hbad
    have h := hone productRequest hbad
    cases hgu : getUrls env productRequest with
    | mk res effs =>
      rw [hgu] at h
      cases res with
      | ok us => simp at h
      | error f => cases h; simp [GetDetailByID, hfind, hgu]
  · intro uid l hfind hbad
    have h := projectAll_panic env d sigFn hdur hsig l hbad
    cases hpa : projectAll env l with
    | mk res effs =>
      rw [hpa] at h
      cases res with
      | ok dtos => simp at h
      | error f => cases h; simp [GetBuyerProductRequestsByUserID, hfind, hpa]
  · intro page limit rows totalRows hlim hfind hbad
    have h := projectAll_panic env d sigFn hdur hsig rows hbad
    cases hpa : projectAll env rows with
    | mk res effs =>
      rw [hpa] at h
      cases res with
      | ok dtos => simp at h
      | error f => cases h; simp [GetPaginatedProductRequests, hfind, hlim, hpa]

/-- A request whose only stored image URI lacks the separator. -/
def badPR : ProductRequest := { samplePR with images := ["nope.png"] }

/-- Witness for C9: over `badPR` all three read operations (and `getUrls`
itself) end in the index-out-of-range panic. -/
theorem malformedURI_panic_witness :
    afterSep "nope.png" = none ∧
    (getUrls (sampleEnv badPR { id := "a", role := "Admin" } sampleOffer) badPR).1 =
      .error (.panic .indexOutOfRange) ∧
    (GetDetailByID (sampleEnv badPR { id := "a", role := "Admin" } sampleOffer) 7).1 =
      .error (.panic .indexOutOfRange) ∧
    (GetBuyerProductRequestsByUserID
        (sampleEnv badPR { id := "a", role := "Admin" } sampleOffer) "owner-1").1 =
      .error (.panic .indexOutOfRange) ∧
    (GetPaginatedProductRequests
        (sampleEnv badPR { id := "a", role := "Admin" } sampleOffer) 1 10).1 =
      .error (.panic .indexOutOfRange) := by
  have h := malformedURI_panic
    (sampleEnv badPR { id := "a", role := "Admin" } sampleOffer)
    900000000000 (fun b p _ => "https://signed/" ++ b ++ "/" ++ p)
    (by decide) (fun b p dd => rfl)
  refine ⟨by decide, h.1 badPR (by decide), h.2.1 7 badPR rfl (by decide),
    h.2.2.1 "owner-1" [badPR] rfl ⟨badPR, by decide, by decide⟩,
    h.2.2.2 1 10 [badPR] 1 (by decide) rfl ⟨badPR, by decide, by decide⟩⟩

/-! ## Pagination -/

/-- When every row's URL resolution succeeds, the projection loop succeeds. -/
theorem projectAll_ok (env : Env) :
    ∀ l : List ProductRequest, (∀ q ∈ l, ∃ us, (getUrls env q).1 = .ok us) →
      ∃ dtos, (projectAll env l).1 = .ok dtos := by
  intro l
  induction l with
  | nil => intro _; exact ⟨[], rfl⟩
  | cons q rest ih =>
    intro hall
    obtain ⟨us, hus⟩ := hall q (by simp)
    obtain ⟨dtos, hdtos⟩ := ih (fun r hr => hall r (by simp [hr]))
    cases hgu : getUrls env q with
    | mk res effs =>
      rw [hgu] at hus
      cases res with
      | error f => simp at hus
      | ok us2 =>
        cases hpr : projectAll env rest with
        | mk res2 effs2 =>
          rw [hpr] at hdtos
          cases res2 with
          | error f2 => simp at hdtos
          | ok dtos2 =>
            exact ⟨{ id := q.id, desc := q.desc, category := q.category,
                     images := us2, budget := q.budget, quantity := q.quantity,
                     userID := q.userID, offers := q.offers,
                     createdAt := q.createdAt, updatedAt := q.updatedAt,
                     deletedAt := q.deletedAtTime } :: dtos2,
              by simp [projectAll, hgu, hpr]⟩

/-- C7: a successful `GetPaginatedProductRequests` with positive limit echoes
the requested page and limit and the store's total row count, and its
`totalPages` is the integer ceiling of `totalRows / limit`: the least `m`
with `totalRows ≤ m * limit`. -/
theorem getPaginated_totalPages (env : Env) (page limit : Int)
    (rows : List ProductRequest) (totalRows : Int)
    (hfind : env.findPaginatedProductRequests page limit = .ok (rows, totalRows))
    (hlim : 0 < limit) (hrows : 0 ≤ totalRows)
    (hurls : ∀ q ∈ rows, ∃ us, (getUrls env q).1 = .ok us) :
    ∃ res, (GetPaginatedProductRequests env page limit).1 = .ok res ∧
      res.page = page ∧ res.limit = limit ∧ res.totalRows = totalRows ∧
      totalRows ≤ res.totalPages * limit ∧
      ∀ m : Int, totalRows ≤ m * limit → res.totalPages ≤ m := by
  have hlim0 : limit ≠ 0 := ne_of_gt hlim
  have htd : Int.tdiv (totalRows + limit - 1) limit = (totalRows + limit - 1) / limit :=
    Int.tdiv_eq_ediv (by omega) (by omega)
  obtain ⟨dtos, hdtos⟩ := projectAll_ok env rows hurls
  cases hpr : projectAll env rows with
  | mk res2 effs2 =>
    rw [hpr] at hdtos
    cases res2 with
    | error f => simp at hdtos
    | ok dtos2 =>
      refine ⟨{ data := dtos2, page := page, limit := limit, totalRows := totalRows,
                totalPages := Int.tdiv (totalRows + limit - 1) limit },
        ?_, rfl, rfl, rfl, ?_, ?_⟩
      · simp [GetPaginatedProductRequests, hfind, hlim0, hpr]
      · rw [htd]
        have h1 := Int.lt_ediv_add_one_mul_self (totalRows + limit - 1) hlim
        have h2 : ((totalRows + limit - 1) / limit + 1) * limit =
            ((totalRows + limit - 1) / limit) * limit + limit := by ring
        rw [h2] at h1
        set K := (totalRows + limit - 1) / limit * limit with hK
        omega
      · intro m hm
        rw [htd]
        have hle : totalRows + limit - 1 ≤ (limit - 1) + m * limit := by linarith
        have hmono := Int.ediv_le_ediv hlim hle
        have heq : ((limit - 1) + m * limit) / limit = (limit - 1) / limit + m :=
          Int.add_mul_ediv_right _ _ hlim0
        have hz : (limit - 1) / limit = 0 :=
          Int.ediv_eq_zero_of_lt (by omega) (by omega)
        rw [heq, hz] at hmono
        simpa using hmono

/-- Witness for C7: one row, `totalRows = 1`, `limit = 10` gives `totalPages`
equal to the ceiling of 1/10, the least `m` with `1 ≤ 10 m`. -/
theorem getPaginated_totalPages_witness :
    (0 : Int) < 10 ∧
    (∃ res, (GetPaginatedProductRequests
        (sampleEnv samplePR { id := "a", role := "Admin" } sampleOffer) 1 10).1 =
        .ok res ∧
      res.page = 1 ∧ res.limit = 10 ∧ res.totalRows = 1 ∧
      (1 : Int) ≤ res.totalPages * 10 ∧
      ∀ m : Int, (1 : Int) ≤ m * 10 → res.totalPages ≤ m) := by
  refine ⟨by decide, getPaginated_totalPages
    (sampleEnv samplePR { id := "a", role := "Admin" } sampleOffer)
    1 10 [samplePR] 1 rfl (by decide) (by decide) ?_⟩
  intro q hq
  have hq2 := List.mem_singleton.mp hq
  subst hq2
  exact ⟨["https://signed/hewpao-s3/images/a.png"], by decide⟩

end Hewpao
